import Mathlib

/-!
Verification of the scoring / deduplication / ranking engine of the
contest-log checker in `src/main.py`.

Shallow-embedding conventions used throughout this file:

* Python strings are modelled as `List Char`.  Python string methods
  (`strip`, `upper`, `split`, slicing, membership) are re-implemented below
  as executable Lean functions on `List Char`, restricted to the ASCII
  behaviour that the program's data exercises.
* Python `int` is modelled as `Int`; fallible conversions (`int(...)`, which
  may raise `ValueError`) are modelled with `Option`/`Except`.
* Mutation of records (`q.dup = True`) is modelled by returning updated
  copies; functions that mutate an entry in place become
  `StationEntry → StationEntry`.
* Presentation-only fields of the Python dataclasses that no claim touches
  (operating place, address, comments, raw text, source name) are omitted
  from the embedded records.
-/

/-- Python whitespace characters (ASCII subset used by `str.strip` /
`str.split` on the program's data). -/
def pyIsSpace (c : Char) : Bool :=
  c = ' ' ∨ c = '\t' ∨ c = '\n' ∨ c = '\r' ∨ c = Char.ofNat 11 ∨ c = Char.ofNat 12

/-- Python `str.strip()`: drop whitespace from both ends. -/
def pyStrip (s : List Char) : List Char :=
  ((s.dropWhile pyIsSpace).reverse.dropWhile pyIsSpace).reverse

/-- Python `str.upper()` (ASCII). -/
def pyUpper (s : List Char) : List Char := s.map Char.toUpper

/-- Python `str.lower()` (ASCII). -/
def pyLower (s : List Char) : List Char := s.map Char.toLower

/-- `re.fullmatch(r"\d+", s)`: nonempty and all decimal digits. Also models
Python `str.isdigit()` on the ASCII data this program handles. -/
def isDigitStr (s : List Char) : Bool := ¬ s = [] ∧ s.all Char.isDigit

/-- Numeric value of a decimal digit string (most significant first). -/
def digitsVal (s : List Char) : Nat :=
  s.foldl (fun a c => a * 10 + (c.toNat - 48)) 0

/-- Decimal digit character for `d < 10`. -/
def digitChar (d : Nat) : Char := Char.ofNat (48 + d)

/-- Fuel-driven core of `natRepr`; the fuel is always sufficient when it
starts at `n + 1`. -/
def natReprGo : Nat → Nat → List Char → List Char
  | 0, _, acc => acc
  | fuel + 1, n, acc =>
    if n < 10 then digitChar n :: acc
    else natReprGo fuel (n / 10) (digitChar (n % 10) :: acc)

/-- Python `str(n)` for a natural number: decimal representation without
leading zeros. -/
def natRepr (n : Nat) : List Char := natReprGo (n + 1) n []

/-- Python `str(i)` for an integer. -/
def pyIntRepr (i : Int) : List Char :=
  if i < 0 then '-' :: natRepr i.natAbs else natRepr i.toNat

/-- Python `int(s)` on a string: strip, optional sign, decimal digits;
`none` models a raised `ValueError`. -/
def pyInt (s : List Char) : Option Int :=
  let t := pyStrip s
  match t with
  | '+' :: rest => if isDigitStr rest then some ((digitsVal rest : Int)) else none
  | '-' :: rest => if isDigitStr rest then some (-(digitsVal rest : Int)) else none
  | _ => if isDigitStr t then some ((digitsVal t : Int)) else none

/-- Split a character list at every character satisfying `p`, keeping empty
chunks (like Python `str.split(sep)`). -/
def splitBy (p : Char → Bool) : List Char → List (List Char)
  | [] => [[]]
  | c :: cs =>
    let r := splitBy p cs
    if p c then [] :: r
    else
      match r with
      | [] => [[c]]
      | w :: ws => (c :: w) :: ws

/-- Python `s.split(sep)` for a single-character separator. -/
def splitOnChar (sep : Char) (s : List Char) : List (List Char) :=
  splitBy (fun c => c = sep) s

/-- Python `s.split()` with no argument: split on whitespace runs, dropping
empty chunks. -/
def pySplitWs (s : List Char) : List (List Char) :=
  (splitBy pyIsSpace s).filter (fun w => ¬ w = [])

/-- First index at which `pat` occurs as a contiguous sublist of `hay`. -/
def findSubIdx (hay pat : List Char) : Option Nat :=
  match hay with
  | [] => if pat = [] then some 0 else none
  | _ :: rest =>
    if pat.isPrefixOf hay then some 0
    else (findSubIdx rest pat).map (· + 1)

/-- Python `pat in hay` substring test. -/
def containsSub (hay pat : List Char) : Bool := (findSubIdx hay pat).isSome

/-- `q.dup`-style boolean negation of emptiness for readability. -/
def strNonEmpty (s : List Char) : Bool := ¬ s = []

/-- `RST_PREFIXES = ("59", "57", "55", "58", "56")` from `src/main.py`. -/
def RST_PREFIXES : List (List Char) :=
  [['5', '9'], ['5', '7'], ['5', '5'], ['5', '8'], ['5', '6']]

/-- `_canon_exchange` from `src/main.py`: strip; empty or `-` becomes empty;
keep only digits; `str(int(s))` normalizes away leading zeros. -/
def canon_exchange (exch : List Char) : List Char :=
  let s := pyStrip exch
  if s = [] ∨ s = ['-'] then []
  else
    let d := s.filter Char.isDigit
    if d = [] then [] else natRepr (digitsVal d)

/-- First RST prefix that `s` properly extends, mirroring the
`for rst in RST_PREFIXES` loop of `_extract_exchange_from_token`. -/
def findRstHead (s : List Char) : Option (List Char) :=
  RST_PREFIXES.find? (fun r => r.isPrefixOf s ∧ r.length < s.length)

/-- `_extract_exchange_from_token` from `src/main.py`. -/
def extract_exchange_from_token (tok : List Char) : List Char :=
  let s := pyStrip tok
  if s = [] ∨ s = ['-'] then []
  else if s ∈ RST_PREFIXES then []
  else
    match findRstHead s with
    | some r => (s.drop r.length).filter Char.isDigit
    | none => s.filter Char.isDigit

/-- Fuel-driven core of `removeAllSub`; fuel `s.length` is always enough
because each step consumes at least one character. -/
def removeAllSubGo (pat : List Char) : Nat → List Char → List Char
  | 0, s => s
  | _ + 1, [] => []
  | fuel + 1, c :: cs =>
    if pat.isPrefixOf (c :: cs) ∧ ¬ pat = [] then
      removeAllSubGo pat fuel (List.drop (pat.length - 1) cs)
    else c :: removeAllSubGo pat fuel cs

/-- Remove every occurrence of `pat` from `s` (Python `s.replace(pat, "")`). -/
def removeAllSub (pat s : List Char) : List Char :=
  removeAllSubGo pat s.length s

/-- `_parse_band_mhz` from `src/main.py`: strip, delete `MHz` / `mhz`,
strip again. -/
def parse_band_mhz (tok : List Char) : List Char :=
  pyStrip (removeAllSub (("mhz").toList) (removeAllSub (("MHz").toList) (pyStrip tok)))

/-- Digit-dot-digit decomposition for `re.fullmatch(r"\d+(\.\d+)?", s)`:
returns the integer and fractional digit groups when the shape matches. -/
def bandShape (s : List Char) : Option (List Char × List Char) :=
  match splitOnChar '.' s with
  | [ip] => if isDigitStr ip then some (ip, []) else none
  | [ip, fp] => if isDigitStr ip ∧ isDigitStr fp then some (ip, fp) else none
  | _ => none

/-- `_canon_band_token` from `src/main.py`.  The Python code converts the
token with `float(...)` and tests `abs(f - round(f)) < 1e-9`; decimal
literals are modelled exactly as rationals (numerator `num` over
denominator `den = 10 ^ |fractional part|`), which agrees with the float
test on the short decimal band tokens the program receives. -/
def canon_band_token (tok : List Char) : List Char :=
  let s := pyStrip (parse_band_mhz tok)
  if s = [] then []
  else
    match bandShape s with
    | none => s
    | some (ip, fp) =>
      let num := digitsVal (ip ++ fp)
      let den := 10 ^ fp.length
      let frac := num % den
      if frac * 1000000000 < den ∨ (den - frac) * 1000000000 < den then
        natRepr (if frac * 2 < den then num / den else num / den + 1)
      else s

/-- `_parse_time` from `src/main.py`: turn a bare 4-digit token into
`HH:MM`; everything else (including an already well-formed `HH:MM`, whose
source branch returns the input unchanged) passes through. -/
def parse_time (tok : List Char) : List Char :=
  if tok = [] then []
  else
    let s := pyStrip tok
    match s with
    | [a, b, c, d] =>
      if a.isDigit ∧ b.isDigit ∧ c.isDigit ∧ d.isDigit then [a, b, ':', c, d] else s
    | _ => s

/-- `_looks_date` from `src/main.py`: full match of four digits, a dash or
slash, two digits, a dash or slash, two digits, on the stripped token. -/
def looks_date (s : List Char) : Bool :=
  match pyStrip s with
  | [y1, y2, y3, y4, s1, m1, m2, s2, d1, d2] =>
    y1.isDigit ∧ y2.isDigit ∧ y3.isDigit ∧ y4.isDigit ∧
      (s1 = '-' ∨ s1 = '/') ∧ m1.isDigit ∧ m2.isDigit ∧
      (s2 = '-' ∨ s2 = '/') ∧ d1.isDigit ∧ d2.isDigit
  | _ => false

/-- `_looks_time` from `src/main.py`: `\d{2}:\d{2}` or a bare `\d{4}`. -/
def looks_time (s : List Char) : Bool :=
  match pyStrip s with
  | [h1, h2, ':', m1, m2] => h1.isDigit ∧ h2.isDigit ∧ m1.isDigit ∧ m2.isDigit
  | [a, b, c, d] => a.isDigit ∧ b.isDigit ∧ c.isDigit ∧ d.isDigit
  | _ => false

/-- `_clean_callsign` from `src/main.py`: strip and upper-case. -/
def clean_callsign (call : List Char) : List Char :=
  if call = [] then [] else pyUpper (pyStrip call)

/-- `_looks_callsign` from `src/main.py`: after strip/upper, nonempty, all
characters in `[A-Z0-9/]`, and at least one letter. -/
def looks_callsign (tok : List Char) : Bool :=
  let s := pyUpper (pyStrip tok)
  ¬ s = [] ∧
    s.all (fun c => ('A' ≤ c ∧ c ≤ 'Z') ∨ c.isDigit ∨ c = '/') ∧
    s.any (fun c => 'A' ≤ c ∧ c ≤ 'Z')

/-- One logged contact, mirroring dataclass `QsoRecord` in `src/main.py`. -/
structure QsoRecord where
  date : List Char
  time : List Char
  band_mhz : List Char
  mode : List Char
  worked_call : List Char
  sent_exch : List Char
  rcvd_exch : List Char
  pts : Int
  dup : Bool
  raw : List Char
deriving DecidableEq

/-- Python `s.replace(",", "")` on a token. -/
def stripCommas (s : List Char) : List Char := s.filter (fun c => ¬ c = ',')

/-- `re.search(r"\s0\s*$", s)`: after discarding trailing whitespace the
line ends in `0` immediately preceded by a whitespace character. -/
def searchWs0End (s : List Char) : Bool :=
  match s.reverse.dropWhile pyIsSpace with
  | '0' :: c :: _ => pyIsSpace c
  | _ => false

/-- `_take_pts_from_tail` from `src/main.py`: point value from the last
token, or from the second-to-last before a `dup`/`dupe` marker, else 0 when
the raw line ends in a lone `0`, else the standard 2. -/
def take_pts_from_tail (tokens : List (List Char)) (raw_line : List Char) :
    Int × List (List Char) :=
  if tokens = [] then (2, tokens)
  else
    let tail := pyStrip (stripCommas (tokens.getLastD []))
    if isDigitStr tail then ((digitsVal tail : Int), tokens.dropLast)
    else
      let fallback : Int × List (List Char) :=
        if searchWs0End raw_line then (0, tokens) else (2, tokens)
      if 2 ≤ tokens.length ∧
          (pyLower (tokens.getLastD []) = ("dupe").toList ∨
            pyLower (tokens.getLastD []) = ("dup").toList) then
        let tail2 := pyStrip (stripCommas (tokens.dropLast.getLastD []))
        if isDigitStr tail2 then ((digitsVal tail2 : Int), tokens.dropLast.dropLast)
        else fallback
      else fallback

/-- Index list `[i for i, tok in enumerate(rest) if tok in RST_PREFIXES]`. -/
def rst_indices : List (List Char) → Nat → List Nat
  | [], _ => []
  | t :: rest, i =>
    if t ∈ RST_PREFIXES then i :: rst_indices rest (i + 1)
    else rst_indices rest (i + 1)

/-- Sent/received exchange token selection of `parse_logsheet_ctestwin`,
driven by the positions of RST report tokens (`List.getD _ _ []` returns the
empty string exactly when the guarded Python index is out of range). -/
def pick_exchange_toks (rest : List (List Char)) : List Char × List Char :=
  match rst_indices rest 0 with
  | i1 :: i2 :: _ => (rest.getD (i1 + 1) [], rest.getD (i2 + 1) [])
  | [i] => (if 1 ≤ i then rest.getD (i - 1) [] else [], rest.getD (i + 1) [])
  | [] => (rest.getD 0 [], rest.getD 1 [])

/-- Loop body of `parse_logsheet_ctestwin` from `src/main.py` for a single
raw line; `none` models the `continue` line-skip paths. -/
def parse_ctestwin_line (raw : List Char) : Option QsoRecord :=
  let s := pyStrip raw
  if s = [] then none
  else if (("DATE").toList).isPrefixOf s ∨ (("---").toList).isPrefixOf s ∨
      (("Date").toList).isPrefixOf s then none
  else
    match pySplitWs s with
    | p0 :: p1 :: p2 :: p3 :: p4 :: rest =>
      if rest = [] then none
      else if ¬ (looks_date p0 ∧ looks_time p1) then none
      else
        let date := p0.map (fun c => if c = '/' then '-' else c)
        let time := parse_time p1
        let band := parse_band_mhz p2
        let mode := if isDigitStr p3 ∧ looks_callsign p4 then ("AM").toList else p3
        let call := clean_callsign p4
        let pr := take_pts_from_tail rest s
        let toks := pick_exchange_toks pr.2
        let sent := canon_exchange (extract_exchange_from_token toks.1)
        let rcvd := canon_exchange (extract_exchange_from_token toks.2)
        let pts : Int :=
          if pr.1 ≤ 0 then
            if searchWs0End s ∨ containsSub (pyLower s) (("dupe").toList) ∨
                containsSub (pyLower s) (("dup").toList) then 0 else 2
          else pr.1
        some { date := date, time := time, band_mhz := band, mode := mode,
               worked_call := call, sent_exch := sent, rcvd_exch := rcvd,
               pts := pts, dup := false, raw := raw }
    | _ => none

/-- `parse_logsheet_ctestwin` from `src/main.py` over a list of raw lines. -/
def parse_logsheet_ctestwin (lines : List (List Char)) : List QsoRecord :=
  lines.filterMap parse_ctestwin_line

/-- Join tokens with single spaces, as the export f-string does. -/
def joinSp : List (List Char) → List Char
  | [] => []
  | [t] => t
  | t :: rest => t ++ ' ' :: joinSp rest

/-- `qso_to_ctestwin_line` from `src/main.py`: canonical
`DATE TIME BAND MODE CALL 59 SENT 59 RCVD PTS` re-export line. -/
def qso_to_ctestwin_line (q : QsoRecord) : List Char :=
  let date := pyStrip (q.date.map (fun c => if c = '/' then '-' else c))
  let time := pyStrip (parse_time q.time)
  let band := if canon_band_token q.band_mhz = [] then ("50").toList
    else canon_band_token q.band_mhz
  let mode := pyUpper (pyStrip (if q.mode = [] then ("AM").toList else q.mode))
  let call := clean_callsign q.worked_call
  let sent := if canon_exchange q.sent_exch = [] then ['-'] else canon_exchange q.sent_exch
  let rcvd := if canon_exchange q.rcvd_exch = [] then ['-'] else canon_exchange q.rcvd_exch
  joinSp [date, time, band, mode, call, ['5', '9'], sent, ['5', '9'], rcvd, pyIntRepr q.pts]

/-- Tuple compared by the round-trip property: (callsign, band, mode, sent,
rcvd, pts). -/
structure QsoKey where
  worked_call : List Char
  band_mhz : List Char
  mode : List Char
  sent_exch : List Char
  rcvd_exch : List Char
  pts : Int
deriving DecidableEq

/-- The round-trip comparison tuple of a contact record. -/
def qso_key (q : QsoRecord) : QsoKey :=
  ⟨q.worked_call, q.band_mhz, q.mode, q.sent_exch, q.rcvd_exch, q.pts⟩

/-- Deduplication key of `mark_duplicates`: (band token trimmed, mode
upper-cased and trimmed, worked callsign upper-cased and trimmed). -/
def dup_key (q : QsoRecord) : List Char × List Char × List Char :=
  (pyStrip q.band_mhz, pyUpper (pyStrip q.mode), pyUpper (pyStrip q.worked_call))

/-- Recursion of `mark_duplicates` with the running `seen` set (modelled as
a list of keys; only membership is used).  Note the source adds the key to
`seen` in the whole `else` branch — also when the contact is marked
duplicate because its points are already 0. -/
def mark_duplicates_go (seen : List (List Char × List Char × List Char)) :
    List QsoRecord → List QsoRecord
  | [] => []
  | q :: rest =>
    if dup_key q ∈ seen then
      { q with dup := true, pts := 0 } :: mark_duplicates_go seen rest
    else
      { q with dup := decide (q.pts = 0) } ::
        mark_duplicates_go (dup_key q :: seen) rest

/-- `mark_duplicates` from `src/main.py`. -/
def mark_duplicates (qsos : List QsoRecord) : List QsoRecord :=
  mark_duplicates_go [] qsos

/-- One contest participant, mirroring dataclass `StationEntry` in
`src/main.py`.  Presentation-only fields (category, operating place,
address, comments, logsheet type, source name, raw submission text) are
omitted; no claim reads them.  The Python field `match` is a reserved word
in Lean and is embedded as `match_flag`. -/
structure StationEntry where
  callsign : List Char
  claimed_qso : Option Int
  claimed_pts : Option Int
  claimed_mult : Option Int
  claimed_total : Option Int
  qsos : List QsoRecord
  recalced_qso : Int
  recalced_pts : Int
  recalced_mult : Int
  recalced_total : Int
  manual_enabled : Bool
  manual_qso : Option Int
  manual_pts : Option Int
  manual_mult : Option Int
  manual_total : Option Int
  manual_note : List Char
  match_flag : Bool
  reason : List Char
  is_checklog : Bool
deriving DecidableEq

/-- `_apply_manual_override` from `src/main.py` (the manual operating-place
override only rewrites the omitted display field and is not modelled). -/
def apply_manual_override (e : StationEntry) : StationEntry :=
  if ¬ e.manual_enabled then e
  else
    let rq := e.manual_qso.getD e.recalced_qso
    let rp := e.manual_pts.getD e.recalced_pts
    let rm := e.manual_mult.getD e.recalced_mult
    let rt := match e.manual_total with
      | some v => v
      | none => rp * rm
    { e with recalced_qso := rq, recalced_pts := rp, recalced_mult := rm,
             recalced_total := rt }

/-- Valid-contact filter of `recalc_entry`: `(not q.dup) and q.pts > 0`. -/
def is_valid_qso (q : QsoRecord) : Bool := (¬ q.dup) ∧ 0 < q.pts

/-- One step of the `mult_set` accumulation in `recalc_entry`: insert the
canonicalized received exchange when nonempty (Python `set.add`, modelled
as insert-if-absent into a duplicate-free list). -/
def mult_set_insert (s : List (List Char)) (q : QsoRecord) : List (List Char) :=
  let ex := canon_exchange q.rcvd_exch
  if ex = [] then s else if ex ∈ s then s else ex :: s

/-- The `mult_set` of `recalc_entry` over the valid contacts. -/
def mult_set_of (valid : List QsoRecord) : List (List Char) :=
  valid.foldl mult_set_insert []

/-- `add_reason` closure inside `recalc_entry`: a discrepancy line when the
claimed figure is present and differs from the recomputed one. -/
def add_reason (label : List Char) (a : Option Int) (b : Int) : Option (List Char) :=
  match a with
  | none => none
  | some v =>
    if v = b then none
    else some (label ++ ("差（申告").toList ++ pyIntRepr v ++
      ("/再計算").toList ++ pyIntRepr b ++ ("）").toList)

/-- Python `" / ".join(reasons)`. -/
def joinReasonSep : List (List Char) → List Char
  | [] => []
  | [r] => r
  | r :: rest => r ++ (" / ").toList ++ joinReasonSep rest

/-- Fixed reason string of the zero-claim policy. -/
def zero_claim_reason : List Char := ("申告が0のため 0扱い（訂正しない）").toList

/-- Discrepancy-comparison tail of `recalc_entry` (the code after the
zero-claim early return). -/
def recalc_verdict (e : StationEntry) : StationEntry :=
  let reasons :=
    [add_reason (("QSO数").toList) e.claimed_qso e.recalced_qso,
     add_reason (("素点").toList) e.claimed_pts e.recalced_pts,
     add_reason (("マルチ").toList) e.claimed_mult e.recalced_mult,
     add_reason (("総得点").toList) e.claimed_total e.recalced_total].filterMap id
  let note := if e.manual_enabled ∧ ¬ pyStrip e.manual_note = []
    then (" / 手動:").toList ++ e.manual_note else []
  { e with match_flag := reasons.isEmpty, reason := joinReasonSep reasons ++ note }

/-- First half of `recalc_entry` from `src/main.py`: dedup, recompute the
four figures, apply the manual override. -/
def recalc_compute (e : StationEntry) : StationEntry :=
  let qsos := mark_duplicates e.qsos
  let valid := qsos.filter is_valid_qso
  let rp : Int := (valid.map (fun q => q.pts)).sum
  let rm : Int := (mult_set_of valid).length
  apply_manual_override
    { e with qsos := qsos, recalced_qso := (valid.length : Int),
             recalced_pts := rp, recalced_mult := rm,
             recalced_total := rp * rm }

/-- `recalc_entry` from `src/main.py`: recompute, then either the
zero-claim early return or the discrepancy comparison. -/
def recalc_entry (e : StationEntry) : StationEntry :=
  match (recalc_compute e).claimed_total with
  | some t =>
    if t = 0 then
      { recalc_compute e with match_flag := true, reason := zero_claim_reason }
    else recalc_verdict (recalc_compute e)
  | none => recalc_verdict (recalc_compute e)

/-- `_entry_rank_metrics` from `src/main.py`. -/
def entry_rank_metrics (e : StationEntry) : Int × Int × Int × Int :=
  (e.recalced_total, e.recalced_pts, e.recalced_mult, e.recalced_qso)

/-- Lexicographic strict order on character lists by code point (Python
string `<`). -/
def strLtChars : List Char → List Char → Bool
  | [], [] => false
  | [], _ :: _ => true
  | _ :: _, [] => false
  | a :: xs, b :: ys =>
    if a.toNat < b.toNat then true
    else if b.toNat < a.toNat then false
    else strLtChars xs ys

/-- The sort key of `rank_entries`:
`(-total, -pts, -mult, -qso, callsign)` compared lexicographically. -/
def rank_key_le (a b : StationEntry) : Bool :=
  if ¬ a.recalced_total = b.recalced_total then decide (b.recalced_total < a.recalced_total)
  else if ¬ a.recalced_pts = b.recalced_pts then decide (b.recalced_pts < a.recalced_pts)
  else if ¬ a.recalced_mult = b.recalced_mult then decide (b.recalced_mult < a.recalced_mult)
  else if ¬ a.recalced_qso = b.recalced_qso then decide (b.recalced_qso < a.recalced_qso)
  else strLtChars a.callsign b.callsign ∨ a.callsign = b.callsign

/-- Stable insertion into a sorted list (helper for `pySortedBy`). -/
def insertStable (le : α → α → Bool) (x : α) : List α → List α
  | [] => [x]
  | y :: ys => if le y x then y :: insertStable le x ys else x :: y :: ys

/-- Python `sorted(entries, key=...)`: a stable sort by a total preorder.
Stable sorts agree on their output, so the stable insertion sort below is
observationally the sort the source performs. -/
def pySortedBy (le : α → α → Bool) : List α → List α
  | [] => []
  | x :: xs => insertStable le x (pySortedBy le xs)

/-- Rank-assignment loop of `rank_entries`: equal metric tuples share the
earlier rank, a new tuple takes its 1-based position. -/
def rank_loop : List StationEntry → Option (Int × Int × Int × Int) → Nat → Nat →
    List (Nat × StationEntry)
  | [], _, _, _ => []
  | e :: rest, prev, prevRank, i =>
    let m := entry_rank_metrics e
    let r := if prev = some m then prevRank else i
    (r, e) :: rank_loop rest (some m) r (i + 1)

/-- `rank_entries` from `src/main.py`: competition-rank the sorted entries,
then append every checklog-flagged entry with the sentinel rank 0. -/
def rank_entries (entries : List StationEntry) : List (Nat × StationEntry) :=
  let sorted_es := pySortedBy rank_key_le entries
  rank_loop sorted_es none 0 1 ++
    (entries.filter (fun e => e.is_checklog)).map (fun e => (0, e))

/-- `extract_call_area_digit_base` from `src/main.py`.  The source computes
an unused `base` variable and prints debug lines, then runs
`int(parts[1])` with no guard; a raised `ValueError` is modelled as
`Except.error` carrying the offending token. -/
def extract_call_area_digit_base (callsign : List Char) :
    Except (List Char) (Option Int) :=
  let parts := splitOnChar '/' callsign
  if 1 < parts.length then
    match pyInt (parts.getD 1 []) with
    | some n => Except.ok (some n)
    | none => Except.error (parts.getD 1 [])
  else Except.ok none

/-- Collapse every run of spaces/tabs to a single space
(`re.sub(r"[ \x7bspace,tab\x7d]+", " ", x)` of `_strip_tags_text`). -/
def collapseSpTab : List Char → List Char
  | [] => []
  | [c] => if c = ' ' ∨ c = '\t' then [' '] else [c]
  | c :: d :: rest =>
    if (c = ' ' ∨ c = '\t') ∧ (d = ' ' ∨ d = '\t') then collapseSpTab (d :: rest)
    else (if c = ' ' ∨ c = '\t' then ' ' else c) :: collapseSpTab (d :: rest)

/-- `_strip_tags_text` from `src/main.py`. -/
def strip_tags_text (x : List Char) : List Char :=
  pyStrip (collapseSpTab (pyStrip x))

/-- `_find_tag` from `src/main.py`: first case-insensitive
`<TAG>...</TAG>` region (non-greedy: earliest open tag, then earliest close
tag after it), its content whitespace-normalized; `none` when absent. -/
def find_tag (text tag : List Char) : Option (List Char) :=
  let lh := pyLower text
  let openT := '<' :: (pyLower tag ++ ['>'])
  let closeT := '<' :: '/' :: (pyLower tag ++ ['>'])
  match findSubIdx lh openT with
  | none => none
  | some i =>
    match findSubIdx (lh.drop (i + openT.length)) closeT with
    | none => none
    | some j => some (strip_tags_text ((text.drop (i + openT.length)).take j))

/-- `_safe_int(x, default)` from `src/main.py` for a string-or-`None`
argument (`None` keeps the default; unparsable text keeps the default). -/
def pySafeIntOfStr (x : Option (List Char)) (d : Int) : Int :=
  match x with
  | none => d
  | some s0 =>
    let s := stripCommas (pyStrip s0)
    if s = [] ∨ s = ['-'] then d
    else (pyInt s).getD d

/-- The `claimed_total` produced by `parse_summarysheet` in `src/main.py`:
`d["claimed_total"] = _safe_int(_find_tag(sb, "TOTALSCORE"), 0)`.  The
dictionary value is a plain `int` (never `None`) and is stored unchanged
into the entry's `Optional[int]` field by `build_station_entry_from_text`,
hence the `some`. -/
def claimed_total_of_summary (sb : List Char) : Option Int :=
  some (pySafeIntOfStr (find_tag sb (("TOTALSCORE").toList)) 0)

/-- The inner `_to_int` of `_parse_score_triplet`. -/
def score_field_to_int (x : List Char) : Option Int :=
  let t := pyStrip (stripCommas x)
  if t = [] ∨ t = ['-'] then none else pyInt t

/-- `_parse_score_triplet` from `src/main.py`: claimed (QSO, points,
multiplier), all absent unless the text splits into at least three
comma-separated fields. -/
def parse_score_triplet (score_text : List Char) :
    Option Int × Option Int × Option Int :=
  if score_text = [] then (none, none, none)
  else
    match (splitOnChar ',' score_text).map pyStrip with
    | a :: b :: c :: _ => (score_field_to_int a, score_field_to_int b, score_field_to_int c)
    | _ => (none, none, none)

/-- The deduplication algorithm exactly as claim C3 words it: the key is
recorded as seen ONLY for contacts marked not-duplicate (zero-point
first occurrences do not record their key).  Spec-side definition, to be
compared with `mark_duplicates` from the source. -/
def mark_duplicates_claim_go (seen : List (List Char × List Char × List Char)) :
    List QsoRecord → List QsoRecord
  | [] => []
  | q :: rest =>
    if dup_key q ∈ seen then
      { q with dup := true, pts := 0 } :: mark_duplicates_claim_go seen rest
    else if q.pts = 0 then
      { q with dup := true } :: mark_duplicates_claim_go seen rest
    else
      { q with dup := false } :: mark_duplicates_claim_go (dup_key q :: seen) rest

/-- Entry point of the claim-C3 wording of deduplication. -/
def mark_duplicates_claim (qsos : List QsoRecord) : List QsoRecord :=
  mark_duplicates_claim_go [] qsos

/-- Prefix-based characterization of deduplication (amended claim C3): a
contact whose key occurs among the earlier contacts — of any kind — is
marked duplicate with zeroed points; otherwise it is marked duplicate
exactly when its points are zero, points unchanged. -/
def mark_duplicates_spec_go (pre : List QsoRecord) : List QsoRecord → List QsoRecord
  | [] => []
  | q :: rest =>
    (if dup_key q ∈ pre.map dup_key then { q with dup := true, pts := 0 }
     else { q with dup := decide (q.pts = 0) }) ::
      mark_duplicates_spec_go (pre ++ [q]) rest

/-- Entry point of the prefix-based deduplication characterization. -/
def mark_duplicates_first_occ (qsos : List QsoRecord) : List QsoRecord :=
  mark_duplicates_spec_go [] qsos

/-- Spec-side multiplier: the number of distinct canonicalized received
exchange values among the given contacts, empty values never counted. -/
def distinct_mult_count (valid : List QsoRecord) : Nat :=
  ((valid.map fun q => canon_exchange q.rcvd_exch).filter
    (fun ex => ¬ ex = [])).toFinset.card

/-- The ranking algorithm exactly as claim C6 words it: checklog-flagged
entries are excluded from the competition sequence (receiving no rank and
not influencing the others), and each is appended once at the end with the
sentinel rank 0.  Spec-side definition, to be compared with
`rank_entries` from the source. -/
def rank_entries_claim (entries : List StationEntry) : List (Nat × StationEntry) :=
  let competitors := entries.filter (fun e => ¬ e.is_checklog)
  rank_loop (pySortedBy rank_key_le competitors) none 0 1 ++
    (entries.filter (fun e => e.is_checklog)).map (fun e => (0, e))

/-- Canonical-form conditions on a contact record under which the
CTESTWIN re-export line round-trips through `parse_logsheet_ctestwin`:
well-formed date and time tokens; a band token that band-canonicalization
and MHz-stripping leave unchanged; a mode that is already stripped and
upper-cased, not whitespace and not all digits; a callsign already stripped
and upper-cased without whitespace; sent/received exchanges that are empty
or canonical digit strings neither equal to nor extending an RST report
code; and a non-negative point value. -/
def ctestwin_canonical (q : QsoRecord) : Bool :=
  looks_date q.date ∧ looks_time q.time ∧
  q.date.all (fun c => ¬ pyIsSpace c ∧ ¬ c = '/') ∧
  q.time.all (fun c => ¬ pyIsSpace c) ∧
  (canon_band_token q.band_mhz = q.band_mhz ∧ parse_band_mhz q.band_mhz = q.band_mhz ∧
    ¬ q.band_mhz = [] ∧ q.band_mhz.all (fun c => ¬ pyIsSpace c)) ∧
  (pyUpper (pyStrip q.mode) = q.mode ∧ ¬ q.mode = [] ∧
    q.mode.all (fun c => ¬ pyIsSpace c) ∧ ¬ isDigitStr q.mode) ∧
  (clean_callsign q.worked_call = q.worked_call ∧ ¬ q.worked_call = [] ∧
    q.worked_call.all (fun c => ¬ pyIsSpace c)) ∧
  (q.sent_exch = [] ∨
    (isDigitStr q.sent_exch ∧ natRepr (digitsVal q.sent_exch) = q.sent_exch ∧
      ¬ q.sent_exch ∈ RST_PREFIXES ∧ findRstHead q.sent_exch = none)) ∧
  (q.rcvd_exch = [] ∨
    (isDigitStr q.rcvd_exch ∧ natRepr (digitsVal q.rcvd_exch) = q.rcvd_exch ∧
      ¬ q.rcvd_exch ∈ RST_PREFIXES ∧ findRstHead q.rcvd_exch = none)) ∧
  0 ≤ q.pts

/-- Test-fixture contact constructor (date/time/sent/raw left empty). -/
def mkQso (band mode call rcvd : List Char) (pts : Int) : QsoRecord :=
  ⟨[], [], band, mode, call, [], rcvd, pts, false, []⟩

/-- Test-fixture station-entry constructor. -/
def mkEntry (callsign : List Char) (cq cp cm ct : Option Int)
    (qsos : List QsoRecord) (men : Bool) (mq mp mm mt : Option Int)
    (note : List Char) (chk : Bool) : StationEntry :=
  ⟨callsign, cq, cp, cm, ct, qsos, 0, 0, 0, 0, men, mq, mp, mm, mt, note,
    true, [], chk⟩

/-- Fixture: a zero-point contact. -/
def sample_q_zero : QsoRecord :=
  mkQso (("50").toList) (("AM").toList) (("JA1AAA").toList) (("13").toList) 0

/-- Fixture: a positive-point contact with the same dedup key as
`sample_q_zero`. -/
def sample_q_pos : QsoRecord :=
  mkQso (("50").toList) (("AM").toList) (("JA1AAA").toList) (("14").toList) 2

/-- Fixture: a positive-point contact with a different dedup key and a
different received exchange. -/
def sample_q_other : QsoRecord :=
  mkQso (("50").toList) (("CW").toList) (("JA1BBB").toList) (("105").toList) 2

/-- Fixture entry constructor with prescribed recomputed figures (for the
ranking engine, which reads the stored recomputed fields). -/
def mkRankEntry (callsign : List Char) (t p m qn : Int) (chk : Bool) :
    StationEntry :=
  ⟨callsign, none, none, none, none, [], qn, p, m, t, false, none, none,
    none, none, [], true, [], chk⟩

/-- The ten whitespace-joined tokens of `qso_to_ctestwin_line`. -/
def export_tokens (q : QsoRecord) : List (List Char) :=
  [pyStrip (q.date.map (fun c => if c = '/' then '-' else c)),
   pyStrip (parse_time q.time),
   (if canon_band_token q.band_mhz = [] then ("50").toList
    else canon_band_token q.band_mhz),
   pyUpper (pyStrip (if q.mode = [] then ("AM").toList else q.mode)),
   clean_callsign q.worked_call,
   ['5', '9'],
   (if canon_exchange q.sent_exch = [] then ['-'] else canon_exchange q.sent_exch),
   ['5', '9'],
   (if canon_exchange q.rcvd_exch = [] then ['-'] else canon_exchange q.rcvd_exch),
   pyIntRepr q.pts]

lemma dup_key_set_dup_pts (q : QsoRecord) :
    dup_key { q with dup := true, pts := 0 } = dup_key q := rfl

lemma dup_key_set_dup (q : QsoRecord) (b : Bool) :
    dup_key { q with dup := b } = dup_key q := rfl

lemma mark_duplicates_go_idem (qsos : List QsoRecord) :
    ∀ seen, mark_duplicates_go seen (mark_duplicates_go seen qsos) =
      mark_duplicates_go seen qsos := by
  induction qsos with
  | nil => intro seen; rfl
  | cons q rest ih =>
    intro seen
    by_cases h : dup_key q ∈ seen
    · simp only [mark_duplicates_go, if_pos h]
      simp only [mark_duplicates_go, dup_key_set_dup_pts, if_pos h]
      exact congrArg _ (ih seen)
    · simp only [mark_duplicates_go, if_neg h]
      simp only [mark_duplicates_go, dup_key_set_dup, if_neg h]
      exact congrArg _ (ih (dup_key q :: seen))

lemma mark_duplicates_go_dup_eq (qsos : List QsoRecord) :
    ∀ seen, ∀ r ∈ mark_duplicates_go seen qsos, r.dup = decide (r.pts = 0) := by
  induction qsos with
  | nil => intro seen r hr; cases hr
  | cons q rest ih =>
    intro seen r hr
    by_cases h : dup_key q ∈ seen
    · simp only [mark_duplicates_go, if_pos h, List.mem_cons] at hr
      rcases hr with rfl | hr
      · rfl
      · exact ih seen r hr
    · simp only [mark_duplicates_go, if_neg h, List.mem_cons] at hr
      rcases hr with rfl | hr
      · rfl
      · exact ih (dup_key q :: seen) r hr

lemma valid_filter_of_dup_eq (l : List QsoRecord)
    (h : ∀ r ∈ l, r.dup = decide (r.pts = 0)) :
    l.filter is_valid_qso = l.filter (fun q => decide (0 < q.pts)) := by
  induction l with
  | nil => rfl
  | cons q rest ih =>
    have hq := h q (List.mem_cons_self q rest)
    have hrest : ∀ r ∈ rest, r.dup = decide (r.pts = 0) := fun r hr =>
      h r (List.mem_cons_of_mem q hr)
    by_cases hp : (0 : Int) < q.pts
    · have hne : ¬ q.pts = 0 := by omega
      simp [List.filter_cons, is_valid_qso, hq, hp, hne, ih hrest]
    · by_cases hz : q.pts = 0
      · simp [List.filter_cons, is_valid_qso, hq, hp, hz, ih hrest]
      · simp [List.filter_cons, is_valid_qso, hq, hp, hz, ih hrest]

lemma mark_dup_go_spec (qsos : List QsoRecord) :
    ∀ seen pre, (∀ k, k ∈ seen ↔ k ∈ pre.map dup_key) →
      mark_duplicates_go seen qsos = mark_duplicates_spec_go pre qsos := by
  induction qsos with
  | nil => intro seen pre _; rfl
  | cons q rest ih =>
    intro seen pre hsp
    by_cases h : dup_key q ∈ seen
    · have h2 : dup_key q ∈ pre.map dup_key := (hsp _).mp h
      simp only [mark_duplicates_go, mark_duplicates_spec_go, if_pos h, if_pos h2]
      refine congrArg _ (ih seen (pre ++ [q]) ?_)
      intro k
      rw [hsp k]
      simp only [List.map_append, List.mem_append, List.map_cons, List.map_nil,
        List.mem_cons, List.not_mem_nil, or_false]
      constructor
      · exact Or.inl
      · rintro (hk | rfl)
        · exact hk
        · exact h2
    · have h2 : ¬ dup_key q ∈ pre.map dup_key := fun hc => h ((hsp _).mpr hc)
      simp only [mark_duplicates_go, mark_duplicates_spec_go, if_neg h, if_neg h2]
      refine congrArg _ (ih (dup_key q :: seen) (pre ++ [q]) ?_)
      intro k
      simp only [List.mem_cons, hsp k, List.map_append, List.mem_append,
        List.map_cons, List.map_nil, List.not_mem_nil, or_false]
      tauto

lemma foldl_mult_insert (l : List QsoRecord) :
    ∀ s : List (List Char), s.Nodup →
      (l.foldl mult_set_insert s).Nodup ∧
      (l.foldl mult_set_insert s).toFinset =
        s.toFinset ∪
          ((l.map fun q => canon_exchange q.rcvd_exch).filter
            (fun ex => ¬ ex = [])).toFinset := by
  induction l with
  | nil => intro s hs; simp [hs]
  | cons q l ih =>
    intro s hs
    simp only [List.foldl_cons, List.map_cons]
    by_cases h1 : canon_exchange q.rcvd_exch = []
    · have hstep : mult_set_insert s q = s := by
        simp [mult_set_insert, h1]
      rw [hstep]
      obtain ⟨hn, hf⟩ := ih s hs
      refine ⟨hn, ?_⟩
      rw [hf]
      congr 1
      simp [List.filter_cons, h1]
    · by_cases h2 : canon_exchange q.rcvd_exch ∈ s
      · have hstep : mult_set_insert s q = s := by
          simp [mult_set_insert, h1, h2]
        rw [hstep]
        obtain ⟨hn, hf⟩ := ih s hs
        refine ⟨hn, hf.trans ?_⟩
        rw [List.filter_cons_of_pos (by simp [h1])]
        rw [List.toFinset_cons, Finset.union_insert,
          Finset.insert_eq_self.mpr
            (Finset.mem_union_left _ (List.mem_toFinset.mpr h2))]
      · have hstep : mult_set_insert s q = canon_exchange q.rcvd_exch :: s := by
          simp [mult_set_insert, h1, h2]
        rw [hstep]
        obtain ⟨hn, hf⟩ := ih (canon_exchange q.rcvd_exch :: s)
          (List.nodup_cons.mpr ⟨h2, hs⟩)
        refine ⟨hn, hf.trans ?_⟩
        rw [List.filter_cons_of_pos (by simp [h1])]
        simp only [List.toFinset_cons, Finset.insert_union, Finset.union_insert]

lemma mult_set_of_length (valid : List QsoRecord) :
    (mult_set_of valid).length = distinct_mult_count valid := by
  obtain ⟨hn, hf⟩ := foldl_mult_insert valid [] List.nodup_nil
  unfold mult_set_of distinct_mult_count
  rw [← List.toFinset_card_of_nodup hn, hf]
  simp

lemma recalc_compute_claimed (e : StationEntry) :
    (recalc_compute e).claimed_qso = e.claimed_qso ∧
    (recalc_compute e).claimed_pts = e.claimed_pts ∧
    (recalc_compute e).claimed_mult = e.claimed_mult ∧
    (recalc_compute e).claimed_total = e.claimed_total := by
  unfold recalc_compute apply_manual_override
  dsimp only
  split <;> exact ⟨rfl, rfl, rfl, rfl⟩

lemma recalc_entry_recalced (e : StationEntry) :
    (recalc_entry e).recalced_qso = (recalc_compute e).recalced_qso ∧
    (recalc_entry e).recalced_pts = (recalc_compute e).recalced_pts ∧
    (recalc_entry e).recalced_mult = (recalc_compute e).recalced_mult ∧
    (recalc_entry e).recalced_total = (recalc_compute e).recalced_total := by
  unfold recalc_entry recalc_verdict
  split
  · split <;> exact ⟨rfl, rfl, rfl, rfl⟩
  · exact ⟨rfl, rfl, rfl, rfl⟩

/-- C5: deduplication is idempotent — running `mark_duplicates` on an
already-processed list leaves every contact's duplicate flag and point
value (indeed every field) unchanged. -/
theorem c5_mark_duplicates_idempotent (qsos : List QsoRecord) :
    mark_duplicates (mark_duplicates qsos) = mark_duplicates qsos :=
  mark_duplicates_go_idem qsos []

/-- C10: on inputs with non-negative point values, after deduplication
every contact satisfies `dup = (pts == 0)`, so the valid-contact filter
`(not dup) and pts > 0` coincides with `pts > 0` alone. -/
theorem c10_dup_iff_zero_pts (qsos : List QsoRecord)
    (_hpos : ∀ q ∈ qsos, 0 ≤ q.pts) :
    (∀ r ∈ mark_duplicates qsos, r.dup = decide (r.pts = 0)) ∧
    (mark_duplicates qsos).filter is_valid_qso =
      (mark_duplicates qsos).filter (fun q => decide (0 < q.pts)) :=
  ⟨mark_duplicates_go_dup_eq qsos [],
    valid_filter_of_dup_eq _ (mark_duplicates_go_dup_eq qsos [])⟩

/-- Witness for C10 at a concrete three-contact log (a zero-point contact,
a same-key positive contact, a distinct-key positive contact). -/
theorem c10_witness :
    (∀ q ∈ [sample_q_zero, sample_q_pos, sample_q_other], 0 ≤ q.pts) ∧
    ((∀ r ∈ mark_duplicates [sample_q_zero, sample_q_pos, sample_q_other],
        r.dup = decide (r.pts = 0)) ∧
      (mark_duplicates [sample_q_zero, sample_q_pos, sample_q_other]).filter
          is_valid_qso =
        (mark_duplicates [sample_q_zero, sample_q_pos, sample_q_other]).filter
          (fun q => decide (0 < q.pts))) :=
  ⟨by decide, c10_dup_iff_zero_pts _ (by decide)⟩

/-- C3 (amended): deduplication records the key of every first-occurrence
contact — including zero-point ones marked duplicate — so a contact is
marked duplicate with zeroed points exactly when an earlier contact (of
any kind) carries the same key, and a first-occurrence contact is marked
duplicate (points unchanged) exactly when its points are zero. -/
theorem c3_first_occurrence_semantics (qsos : List QsoRecord) :
    mark_duplicates qsos = mark_duplicates_first_occ qsos :=
  mark_dup_go_spec qsos [] [] (by simp)

/-- Counterexample to C3 as stated: with a zero-point contact followed by a
positive-point contact of the same key, the source records the first
contact's key (marking the second duplicate with zeroed points), while the
claimed rule — record the key only for not-duplicate contacts — would keep
the second contact valid. -/
theorem c3_counterexample :
    mark_duplicates [sample_q_zero, sample_q_pos] ≠
      mark_duplicates_claim [sample_q_zero, sample_q_pos] ∧
    (mark_duplicates [sample_q_zero, sample_q_pos]).map
        (fun q => (q.dup, q.pts)) = [(true, 0), (true, 0)] ∧
    (mark_duplicates_claim [sample_q_zero, sample_q_pos]).map
        (fun q => (q.dup, q.pts)) = [(true, 0), (false, 2)] := by
  refine ⟨?_, by decide, by decide⟩
  decide

/-- C1: a claimed total that is present and exactly zero makes the entry
unconditionally match, with the fixed zero-claim reason string, regardless
of any other claimed/recomputed discrepancy. -/
theorem c1_zero_claim_unconditional_match (e : StationEntry)
    (h : e.claimed_total = some 0) :
    (recalc_entry e).match_flag = true ∧
    (recalc_entry e).reason = zero_claim_reason := by
  have h2 : (recalc_compute e).claimed_total = some 0 :=
    (recalc_compute_claimed e).2.2.2.trans h
  unfold recalc_entry
  split
  · rename_i t heq
    rw [h2] at heq
    injection heq with ht
    subst ht
    rw [if_pos rfl]
    exact ⟨rfl, rfl⟩
  · rename_i heq
    rw [h2] at heq
    cases heq

/-- Witness for C1: a concrete zero-claim entry whose claimed QSO count
(999) is wildly different from its recomputed one still matches. -/
theorem c1_witness :
    (mkEntry (("JA1AAA").toList) (some 999) (some 999) (some 999) (some 0)
        [sample_q_pos] false none none none none [] false).claimed_total = some 0 ∧
    (recalc_entry (mkEntry (("JA1AAA").toList) (some 999) (some 999) (some 999)
        (some 0) [sample_q_pos] false none none none none [] false)).match_flag = true ∧
    (recalc_entry (mkEntry (("JA1AAA").toList) (some 999) (some 999) (some 999)
        (some 0) [sample_q_pos] false none none none none [] false)).reason =
      zero_claim_reason :=
  ⟨rfl, (c1_zero_claim_unconditional_match _ rfl).1,
    (c1_zero_claim_unconditional_match _ rfl).2⟩

/-- C2: after recomputation, the recomputed total equals recomputed points
times recomputed multiplier whenever no manual total override is supplied
(override disabled, or enabled without a total — in which case the product
is taken over the possibly-overridden figures). -/
theorem c2_total_is_product (e : StationEntry)
    (h : e.manual_enabled = false ∨ e.manual_total = none) :
    (recalc_entry e).recalced_total =
      (recalc_entry e).recalced_pts * (recalc_entry e).recalced_mult := by
  obtain ⟨_, hp, hm, ht⟩ := recalc_entry_recalced e
  rw [hp, hm, ht]
  unfold recalc_compute apply_manual_override
  dsimp only
  rcases h with h0 | h0
  · rw [if_pos (by simp [h0])]
  · split
    · rfl
    · dsimp only
      rw [h0]

/-- Witness for C2: an entry with the override enabled, points and
multiplier overridden, but no total override. -/
theorem c2_witness :
    ((mkEntry (("JA1BBB").toList) none none none none [] true (some 5) (some 7)
        (some 3) none (("note").toList) false).manual_enabled = false ∨
      (mkEntry (("JA1BBB").toList) none none none none [] true (some 5) (some 7)
        (some 3) none (("note").toList) false).manual_total = none) ∧
    (recalc_entry (mkEntry (("JA1BBB").toList) none none none none [] true
        (some 5) (some 7) (some 3) none (("note").toList) false)).recalced_total =
      (recalc_entry (mkEntry (("JA1BBB").toList) none none none none [] true
        (some 5) (some 7) (some 3) none (("note").toList) false)).recalced_pts *
      (recalc_entry (mkEntry (("JA1BBB").toList) none none none none [] true
        (some 5) (some 7) (some 3) none (("note").toList) false)).recalced_mult :=
  ⟨Or.inr rfl, c2_total_is_product _ (Or.inr rfl)⟩

/-- C4: when no manual multiplier override interferes, the recomputed
multiplier is the number of distinct canonicalized received-exchange
values among the valid (not-duplicate, positive-point) contacts, empty
values never counted. -/
theorem c4_mult_is_distinct_count (e : StationEntry)
    (h : e.manual_enabled = false ∨ e.manual_mult = none) :
    (recalc_entry e).recalced_mult =
      ((distinct_mult_count ((mark_duplicates e.qsos).filter is_valid_qso) : Nat) : Int) := by
  obtain ⟨_, _, hm, _⟩ := recalc_entry_recalced e
  rw [hm]
  unfold recalc_compute apply_manual_override
  dsimp only
  rcases h with h0 | h0
  · rw [if_pos (by simp [h0])]
    dsimp only
    rw [mult_set_of_length]
  · split
    · dsimp only
      rw [mult_set_of_length]
    · dsimp only
      rw [h0]
      dsimp only [Option.getD]
      rw [mult_set_of_length]

/-- Witness for C4 on a concrete log: duplicate and zero-point contacts do
not contribute, distinct canonical exchanges are counted once. -/
theorem c4_witness :
    ((mkEntry (("JA1CCC").toList) none none none none
        [sample_q_zero, sample_q_pos, sample_q_other] false none none none none
        [] false).manual_enabled = false ∨
      (mkEntry (("JA1CCC").toList) none none none none
        [sample_q_zero, sample_q_pos, sample_q_other] false none none none none
        [] false).manual_mult = none) ∧
    (recalc_entry (mkEntry (("JA1CCC").toList) none none none none
        [sample_q_zero, sample_q_pos, sample_q_other] false none none none none
        [] false)).recalced_mult =
      ((distinct_mult_count ((mark_duplicates
          (mkEntry (("JA1CCC").toList) none none none none
            [sample_q_zero, sample_q_pos, sample_q_other] false none none none
            none [] false).qsos).filter is_valid_qso) : Nat) : Int) :=
  ⟨Or.inl rfl, c4_mult_is_distinct_count _ (Or.inl rfl)⟩

/-- C8: evaluating `extract_call_area_digit_base` at the failing input
`JA1ABC/P` — the unguarded `int(parts[1])` raises (modelled as
`Except.error`) instead of excluding the entry, so `build_award_lists`
crashes on any 1X entry with a non-numeric slash suffix; numeric suffixes
and slash-free callsigns behave as the claim describes. -/
theorem c8_area_extraction_raises :
    extract_call_area_digit_base (("JA1ABC/P").toList) =
      Except.error (("P").toList) ∧
    extract_call_area_digit_base (("JA1ABC/1").toList) = Except.ok (some 1) ∧
    extract_call_area_digit_base (("JA1ABC").toList) = Except.ok none :=
  ⟨rfl, rfl, rfl⟩

lemma insertStable_perm (le : α → α → Bool) (x : α) (l : List α) :
    (insertStable le x l).Perm (x :: l) := by
  induction l with
  | nil => exact List.Perm.refl _
  | cons y ys ih =>
    unfold insertStable
    split
    · exact (ih.cons y).trans (List.Perm.swap x y ys)
    · exact List.Perm.refl _

lemma pySortedBy_perm (le : α → α → Bool) (l : List α) :
    (pySortedBy le l).Perm l := by
  induction l with
  | nil => exact List.Perm.refl _
  | cons x xs ih => exact (insertStable_perm le x _).trans (ih.cons x)

lemma rank_loop_snd (l : List StationEntry) :
    ∀ prev pr i, (rank_loop l prev pr i).map Prod.snd = l := by
  induction l with
  | nil => intro prev pr i; rfl
  | cons e rest ih =>
    intro prev pr i
    unfold rank_loop
    dsimp only [List.map_cons]
    rw [ih]

lemma rank_loop_length (l : List StationEntry) (prev pr i) :
    (rank_loop l prev pr i).length = l.length := by
  have h := rank_loop_snd l prev pr i
  have h2 := congrArg List.length h
  simpa using h2

lemma rank_loop_rank_pos (l : List StationEntry) :
    ∀ prev pr i, 1 ≤ i → (∀ m, prev = some m → 1 ≤ pr) →
      ∀ p ∈ rank_loop l prev pr i, 1 ≤ p.1 := by
  induction l with
  | nil => intro prev pr i _ _ p hp; cases hp
  | cons e rest ih =>
    intro prev pr i hi hpr p hp
    unfold rank_loop at hp
    dsimp only at hp
    rcases List.mem_cons.mp hp with rfl | hp
    · by_cases hm : prev = some (entry_rank_metrics e)
      · simpa [hm] using hpr _ hm
      · simp only [if_neg hm]
        exact hi
    · refine ih _ _ _ (by omega) ?_ p hp
      intro m _
      split
      · exact hpr _ (by assumption)
      · exact hi

/-- C6 (amended): `rank_entries` competition-ranks ALL input entries —
checklog-flagged ones included, so they do receive ranks and do influence
the others — and then additionally appends each checklog entry once more
at the end with the sentinel rank 0 (callers are the ones that pre-filter
checklogs out).  The ranked block is a permutation of the whole input and
every rank in it is at least 1. -/
theorem c6_checklog_append_structure (es : List StationEntry) :
    ((((rank_entries es).take es.length).map Prod.snd).Perm es) ∧
    (rank_entries es).drop es.length =
      (es.filter fun e => e.is_checklog).map (fun e => (0, e)) ∧
    ∀ p ∈ (rank_entries es).take es.length, 1 ≤ p.1 := by
  have hlen : (rank_loop (pySortedBy rank_key_le es) none 0 1).length = es.length := by
    rw [rank_loop_length]
    exact (pySortedBy_perm rank_key_le es).length_eq
  unfold rank_entries
  dsimp only
  refine ⟨?_, ?_, ?_⟩
  · rw [← hlen, List.take_left, rank_loop_snd]
    exact pySortedBy_perm rank_key_le es
  · rw [← hlen, List.drop_left]
  · rw [← hlen, List.take_left]
    exact rank_loop_rank_pos _ none 0 1 (by omega) (by intro m h; cases h)

/-- Counterexample to C6 as stated: with one checklog entry (total 100)
and one regular entry (total 10), the source ranks the checklog first
(rank 1), pushes the regular entry to rank 2, and appends the checklog a
second time with rank 0 — the claimed behaviour (checklog excluded from
competition, appended exactly once) gives a different list. -/
theorem c6_counterexample :
    rank_entries
        [mkRankEntry (("JA1LOW").toList) 10 5 2 5 false,
         mkRankEntry (("JA1CHK").toList) 100 50 2 25 true] ≠
      rank_entries_claim
        [mkRankEntry (("JA1LOW").toList) 10 5 2 5 false,
         mkRankEntry (("JA1CHK").toList) 100 50 2 25 true] ∧
    rank_entries
        [mkRankEntry (("JA1LOW").toList) 10 5 2 5 false,
         mkRankEntry (("JA1CHK").toList) 100 50 2 25 true] =
      [(1, mkRankEntry (("JA1CHK").toList) 100 50 2 25 true),
       (2, mkRankEntry (("JA1LOW").toList) 10 5 2 5 false),
       (0, mkRankEntry (("JA1CHK").toList) 100 50 2 25 true)] ∧
    rank_entries_claim
        [mkRankEntry (("JA1LOW").toList) 10 5 2 5 false,
         mkRankEntry (("JA1CHK").toList) 100 50 2 25 true] =
      [(1, mkRankEntry (("JA1LOW").toList) 10 5 2 5 false),
       (0, mkRankEntry (("JA1CHK").toList) 100 50 2 25 true)] := by
  refine ⟨?_, by decide, by decide⟩
  decide

/-- C7 (amended): the claimed QSO count, points and multiplier are each
optionally absent — absent whenever the SCORE text has fewer than three
comma-separated fields — and, with all three absent, the verdict depends
only on the claimed total; but the claimed total itself is never absent
after summary parsing: a missing TOTALSCORE tag yields a present claimed
total of 0 (which then triggers the zero-claim unconditional match). -/
theorem c7_absent_claims (sb st : List Char) (e : StationEntry) (t : Int)
    (hsb : find_tag sb (("TOTALSCORE").toList) = none)
    (hst : (splitOnChar ',' st).length < 3)
    (h1 : e.claimed_qso = none) (h2 : e.claimed_pts = none)
    (h3 : e.claimed_mult = none) (h4 : e.claimed_total = some t)
    (h5 : ¬ t = 0) :
    claimed_total_of_summary sb = some 0 ∧
    parse_score_triplet st = (none, none, none) ∧
    ((recalc_entry e).match_flag = true ↔ (recalc_entry e).recalced_total = t) := by
  refine ⟨?_, ?_, ?_⟩
  · unfold claimed_total_of_summary
    rw [hsb]
    rfl
  · unfold parse_score_triplet
    by_cases hempty : st = []
    · rw [if_pos hempty]
    · rw [if_neg hempty]
      split
      · rename_i a b c rest heq
        have hlen : ((splitOnChar ',' st).map pyStrip).length =
            (splitOnChar ',' st).length := List.length_map _ _
        rw [heq] at hlen
        simp only [List.length_cons] at hlen
        omega
      · rfl
  · obtain ⟨hc1, hc2, hc3, hc4⟩ := recalc_compute_claimed e
    rw [h1] at hc1
    rw [h2] at hc2
    rw [h3] at hc3
    rw [h4] at hc4
    unfold recalc_entry
    split
    · rename_i t2 heq
      rw [hc4] at heq
      injection heq with ht2
      subst ht2
      rw [if_neg h5]
      unfold recalc_verdict
      dsimp only
      by_cases hrt : t = (recalc_compute e).recalced_total
      · simp [add_reason, hc1, hc2, hc3, hc4, hrt]
      · simp [add_reason, hc1, hc2, hc3, hc4, hrt, joinReasonSep]
        omega
    · rename_i heq
      rw [hc4] at heq
      cases heq

/-- Witness for C7 at concrete inputs: a summary block with no TOTALSCORE
tag, a SCORE text with a single field, and an entry claiming only a total
of 7 against recomputed 0. -/
theorem c7_witness :
    (find_tag (("<SUMMARYSHEET><CALLSIGN>JA1XYZ</CALLSIGN></SUMMARYSHEET>").toList)
        (("TOTALSCORE").toList) = none ∧
      (splitOnChar ',' (("10").toList)).length < 3 ∧
      (mkEntry (("JA1DDD").toList) none none none (some 7) [] false none none
        none none [] false).claimed_total = some 7) ∧
    claimed_total_of_summary
        (("<SUMMARYSHEET><CALLSIGN>JA1XYZ</CALLSIGN></SUMMARYSHEET>").toList) = some 0 ∧
    parse_score_triplet (("10").toList) = (none, none, none) ∧
    ((recalc_entry (mkEntry (("JA1DDD").toList) none none none (some 7) []
        false none none none none [] false)).match_flag = true ↔
      (recalc_entry (mkEntry (("JA1DDD").toList) none none none (some 7) []
        false none none none none [] false)).recalced_total = 7) :=
  ⟨⟨by decide, by decide, rfl⟩,
    c7_absent_claims _ _ _ 7 (by decide) (by decide) rfl rfl rfl rfl (by decide)⟩

/-- Counterexample to C7 as stated: a summary sheet without any TOTALSCORE
field parses to a PRESENT claimed total of 0, not to an absent one. -/
theorem c7_counterexample :
    find_tag (("<SUMMARYSHEET><CALLSIGN>JA1XYZ</CALLSIGN><SCORE BAND=50MHz>10,20,5</SCORE></SUMMARYSHEET>").toList)
        (("TOTALSCORE").toList) = none ∧
    ¬ claimed_total_of_summary
        (("<SUMMARYSHEET><CALLSIGN>JA1XYZ</CALLSIGN><SCORE BAND=50MHz>10,20,5</SCORE></SUMMARYSHEET>").toList) = none ∧
    claimed_total_of_summary
        (("<SUMMARYSHEET><CALLSIGN>JA1XYZ</CALLSIGN><SCORE BAND=50MHz>10,20,5</SCORE></SUMMARYSHEET>").toList) = some 0 := by
  refine ⟨by decide, by decide, by decide⟩

lemma natReprGo_acc : ∀ f n acc, n < f →
    natReprGo f n acc = natReprGo f n [] ++ acc := by
  intro f
  induction f with
  | zero => intro n acc h; omega
  | succ f ih =>
    intro n acc h
    by_cases h10 : n < 10
    · simp [natReprGo, h10]
    · have hdiv : n / 10 < n := Nat.div_lt_self (by omega) (by omega)
      simp only [natReprGo, if_neg h10]
      rw [ih (n / 10) _ (by omega), ih (n / 10) [digitChar (n % 10)] (by omega)]
      simp

lemma natReprGo_fuel : ∀ f1 f2 n acc, n < f1 → n < f2 →
    natReprGo f1 n acc = natReprGo f2 n acc := by
  intro f1
  induction f1 with
  | zero => intro f2 n acc h; omega
  | succ f ih =>
    intro f2 n acc h1 h2
    match f2, h2 with
    | g + 1, h2 =>
      by_cases h10 : n < 10
      · simp [natReprGo, h10]
      · have hdiv : n / 10 < n := Nat.div_lt_self (by omega) (by omega)
        simp only [natReprGo, if_neg h10]
        exact ih g (n / 10) _ (by omega) (by omega)

lemma natRepr_lt10 (n : Nat) (h : n < 10) : natRepr n = [digitChar n] := by
  simp [natRepr, natReprGo, h]

lemma natRepr_ge10 (n : Nat) (h : 10 ≤ n) :
    natRepr n = natRepr (n / 10) ++ [digitChar (n % 10)] := by
  have hdiv : n / 10 < n := Nat.div_lt_self (by omega) (by omega)
  unfold natRepr
  conv =>
    lhs
    rw [natReprGo]
  rw [if_neg (by omega)]
  rw [natReprGo_acc n (n / 10) _ (by omega),
    natReprGo_fuel n (n / 10 + 1) (n / 10) [] (by omega) (by omega)]

lemma digitChar_isDigit (d : Nat) (h : d < 10) : (digitChar d).isDigit = true := by
  interval_cases d <;> decide

lemma digitChar_toNat (d : Nat) (h : d < 10) : (digitChar d).toNat = 48 + d := by
  interval_cases d <;> decide

lemma natRepr_digits (n : Nat) : isDigitStr (natRepr n) = true := by
  induction n using Nat.strong_induction_on with
  | _ n ih =>
    by_cases h : n < 10
    · rw [natRepr_lt10 n h]
      simp [isDigitStr, digitChar_isDigit n h]
    · have hdiv : n / 10 < n := Nat.div_lt_self (by omega) (by omega)
      rw [natRepr_ge10 n (by omega)]
      have hprev := ih (n / 10) hdiv
      simp only [isDigitStr, Bool.and_eq_true, decide_eq_true_eq,
        List.all_eq_true] at hprev ⊢
      refine ⟨by simp, ?_⟩
      intro c hc
      rcases List.mem_append.mp hc with hc | hc
      · exact hprev.2 c hc
      · rcases List.mem_singleton.mp hc with rfl
        exact digitChar_isDigit _ (Nat.mod_lt _ (by omega))

lemma digitsVal_append_one (xs : List Char) (c : Char) :
    digitsVal (xs ++ [c]) = 10 * digitsVal xs + (c.toNat - 48) := by
  simp [digitsVal, List.foldl_append]
  omega

lemma digitsVal_natRepr (n : Nat) : digitsVal (natRepr n) = n := by
  induction n using Nat.strong_induction_on with
  | _ n ih =>
    by_cases h : n < 10
    · rw [natRepr_lt10 n h]
      simp [digitsVal, digitChar_toNat n h]
    · have hdiv : n / 10 < n := Nat.div_lt_self (by omega) (by omega)
      rw [natRepr_ge10 n (by omega), digitsVal_append_one, ih (n / 10) hdiv,
        digitChar_toNat _ (Nat.mod_lt _ (by omega))]
      omega

lemma isDigit_not_space (c : Char) (h : c.isDigit = true) : pyIsSpace c = false := by
  by_contra hc
  simp only [Bool.not_eq_false, pyIsSpace, Bool.or_eq_true, decide_eq_true_eq] at hc
  rcases hc with rfl | rfl | rfl | rfl | rfl | rfl <;> simp at h

lemma isDigit_ne (c : Char) (d : Char) (h : c.isDigit = true)
    (hd : d.isDigit = false) : ¬ c = d := by
  intro he
  rw [he, hd] at h
  cases h

lemma dropWhile_eq_self_of_head (p : Char → Bool) (s : List Char)
    (h : ∀ c, s.head? = some c → p c = false) : s.dropWhile p = s := by
  cases s with
  | nil => rfl
  | cons c cs =>
    rw [List.dropWhile_cons, if_neg (by simp [h c rfl])]

lemma pyStrip_eq_self_of_ends (s : List Char)
    (h1 : ∀ c, s.head? = some c → pyIsSpace c = false)
    (h2 : ∀ c, s.getLast? = some c → pyIsSpace c = false) : pyStrip s = s := by
  unfold pyStrip
  rw [dropWhile_eq_self_of_head _ _ h1]
  rw [dropWhile_eq_self_of_head _ _ (by
    intro c hc
    exact h2 c (by rw [← List.head?_reverse]; exact hc))]
  exact List.reverse_reverse s

lemma pyStrip_of_all_not_space (s : List Char)
    (h : s.all (fun c => ¬ pyIsSpace c) = true) : pyStrip s = s := by
  simp only [List.all_eq_true, decide_eq_true_eq, Bool.not_eq_true] at h
  refine pyStrip_eq_self_of_ends s ?_ ?_
  · intro c hc
    refine h c ?_
    cases s with
    | nil => cases hc
    | cons a l =>
      simp only [List.head?_cons, Option.some.injEq] at hc
      subst hc
      exact List.mem_cons_self a l
  · intro c hc
    exact h c (List.mem_of_mem_getLast? (Option.mem_def.mpr hc))

lemma splitBy_cons_sep (p : Char → Bool) (c : Char) (s : List Char)
    (h : p c = true) : splitBy p (c :: s) = [] :: splitBy p s := by
  simp [splitBy, h]

lemma splitBy_token (p : Char → Bool) :
    ∀ (t : List Char), (∀ c ∈ t, p c = false) →
      ∀ (s : List Char) (w : List Char) (ws : List (List Char)),
        splitBy p s = w :: ws → splitBy p (t ++ s) = (t ++ w) :: ws := by
  intro t
  induction t with
  | nil =>
    intro _ s w ws hs
    simpa using hs
  | cons c t ih =>
    intro hall s w ws hs
    have hc : p c = false := hall c (List.mem_cons_self c t)
    have ht : ∀ x ∈ t, p x = false := fun x hx => hall x (List.mem_cons_of_mem c hx)
    have hrec := ih ht s w ws hs
    simp only [List.cons_append]
    unfold splitBy
    rw [if_neg (by simp [hc]), hrec]

lemma splitBy_nil (p : Char → Bool) : splitBy p [] = [[]] := rfl

lemma pySplitWs_joinSp :
    ∀ T : List (List Char),
      (∀ t ∈ T, ¬ t = [] ∧ ∀ c ∈ t, pyIsSpace c = false) →
      pySplitWs (joinSp T) = T := by
  intro T
  induction T with
  | nil => intro _; rfl
  | cons t rest ih =>
    intro hall
    obtain ⟨hne, hws⟩ := hall t (List.mem_cons_self t rest)
    have hrest : ∀ u ∈ rest, ¬ u = [] ∧ ∀ c ∈ u, pyIsSpace c = false :=
      fun u hu => hall u (List.mem_cons_of_mem t hu)
    cases rest with
    | nil =>
      have hsp : splitBy pyIsSpace (t ++ []) = (t ++ []) :: [] :=
        splitBy_token pyIsSpace t hws [] [] [] rfl
      rw [List.append_nil] at hsp
      unfold pySplitWs
      rw [show joinSp [t] = t from rfl, hsp]
      simp [hne]
    | cons u rest2 =>
      have hsub := ih hrest
      unfold pySplitWs at hsub ⊢
      have hsplit2 : splitBy pyIsSpace (' ' :: joinSp (u :: rest2)) =
          [] :: splitBy pyIsSpace (joinSp (u :: rest2)) :=
        splitBy_cons_sep pyIsSpace ' ' _ (by decide)
      rw [show joinSp (t :: u :: rest2) = t ++ ' ' :: joinSp (u :: rest2) from rfl]
      rw [splitBy_token pyIsSpace t hws _ _ _ hsplit2]
      rw [List.filter_cons_of_pos (by simp [hne]), List.append_nil]
      rw [hsub]

lemma joinSp_head? (t : List Char) (rest : List (List Char)) (h : ¬ t = []) :
    (joinSp (t :: rest)).head? = t.head? := by
  cases rest with
  | nil => rfl
  | cons u rest2 =>
    rw [show joinSp (t :: u :: rest2) = t ++ ' ' :: joinSp (u :: rest2) from rfl]
    cases t with
    | nil => exact absurd rfl h
    | cons c cs => rfl

lemma joinSp_getLast? :
    ∀ (T : List (List Char)) (t : List Char), T.getLast? = some t → ¬ t = [] →
      (joinSp T).getLast? = t.getLast? := by
  intro T
  induction T with
  | nil => intro t ht _; cases ht
  | cons u rest ih =>
    intro t ht hne
    cases rest with
    | nil =>
      simp only [List.getLast?_singleton, Option.some.injEq] at ht
      subst ht
      rfl
    | cons v rest2 =>
      rw [List.getLast?_cons_cons] at ht
      rw [show joinSp (u :: v :: rest2) = u ++ ' ' :: joinSp (v :: rest2) from rfl]
      rw [List.getLast?_append_cons]
      have hj : (joinSp (v :: rest2)).getLast? = t.getLast? := ih t ht hne
      cases hjv : joinSp (v :: rest2) with
      | nil =>
        rw [hjv] at hj
        cases t with
        | nil => exact absurd rfl hne
        | cons a l =>
          rw [List.getLast?_eq_getLast_of_ne_nil (List.cons_ne_nil a l)] at hj
          exact Option.noConfusion hj
      | cons b bs =>
        rw [hjv] at hj
        rw [List.getLast?_cons_cons]
        exact hj

lemma joinSp_split_last :
    ∀ (T : List (List Char)) (t : List Char), T.getLast? = some t →
      2 ≤ T.length → ∃ a, joinSp T = a ++ ' ' :: t := by
  intro T
  induction T with
  | nil => intro t ht _; cases ht
  | cons u rest ih =>
    intro t ht hlen
    cases rest with
    | nil => simp at hlen
    | cons v rest2 =>
      rw [List.getLast?_cons_cons] at ht
      rw [show joinSp (u :: v :: rest2) = u ++ ' ' :: joinSp (v :: rest2) from rfl]
      cases rest2 with
      | nil =>
        simp only [List.getLast?_singleton, Option.some.injEq] at ht
        subst ht
        exact ⟨u, rfl⟩
      | cons w rest3 =>
        obtain ⟨a, ha⟩ := ih t ht (by simp only [List.length_cons]; omega)
        refine ⟨u ++ ' ' :: a, ?_⟩
        rw [ha]
        simp

lemma searchWs0End_of_last (a : List Char) :
    searchWs0End (a ++ ' ' :: ['0']) = true := by
  unfold searchWs0End
  rw [show (a ++ ' ' :: ['0'] : List Char) = a ++ [' ', '0'] from rfl]
  rw [List.reverse_append]
  rw [show ([' ', '0'] : List Char).reverse = ['0', ' '] from rfl]
  rw [show (['0', ' '] ++ a.reverse : List Char) = '0' :: ' ' :: a.reverse from rfl]
  rw [List.dropWhile_cons, if_neg (by decide)]
  rfl

lemma not_isPrefixOf_of_head_ne (p0 c : Char) (ps s : List Char) (h : ¬ p0 = c) :
    (p0 :: ps).isPrefixOf (c :: s) = false := by
  simp [List.isPrefixOf, h]

lemma all_digits_not_space (s : List Char) (h : s.all Char.isDigit = true) :
    s.all (fun c => ¬ pyIsSpace c) = true := by
  simp only [List.all_eq_true, decide_eq_true_eq] at h ⊢
  intro c hc
  simp [isDigit_not_space c (h c hc)]

lemma pyStrip_digits (s : List Char) (h : s.all Char.isDigit = true) :
    pyStrip s = s :=
  pyStrip_of_all_not_space s (all_digits_not_space s h)

lemma stripCommas_digits (s : List Char) (h : s.all Char.isDigit = true) :
    stripCommas s = s := by
  simp only [List.all_eq_true] at h
  refine List.filter_eq_self.mpr ?_
  intro c hc
  simpa using isDigit_ne c ',' (h c hc) (by decide)

lemma ne_dash_of_digits (s : List Char) (hne : ¬ s = [])
    (h : s.all Char.isDigit = true) : ¬ s = ['-'] := by
  intro he
  subst he
  simp at h

lemma canon_exchange_canonical (s : List Char) (hd : isDigitStr s = true)
    (hnr : natRepr (digitsVal s) = s) : canon_exchange s = s := by
  simp only [isDigitStr, Bool.and_eq_true, decide_eq_true_eq] at hd
  obtain ⟨hne, hall⟩ := hd
  unfold canon_exchange
  rw [pyStrip_digits s hall]
  rw [if_neg (by
    push_neg
    exact ⟨hne, ne_dash_of_digits s hne hall⟩)]
  rw [List.filter_eq_self.mpr (by
    intro c hc
    exact (List.all_eq_true.mp hall) c hc)]
  rw [if_neg hne, hnr]

lemma extract_canonical (s : List Char) (hd : isDigitStr s = true)
    (h1 : ¬ s ∈ RST_PREFIXES) (h2 : findRstHead s = none) :
    extract_exchange_from_token s = s := by
  simp only [isDigitStr, Bool.and_eq_true, decide_eq_true_eq] at hd
  obtain ⟨hne, hall⟩ := hd
  unfold extract_exchange_from_token
  rw [pyStrip_digits s hall]
  rw [if_neg (by
    push_neg
    exact ⟨hne, ne_dash_of_digits s hne hall⟩)]
  rw [if_neg h1, h2]
  exact List.filter_eq_self.mpr (by
    intro c hc
    exact (List.all_eq_true.mp hall) c hc)

lemma looks_date_head (s : List Char) (h : looks_date s = true)
    (hns : s.all (fun c => ¬ pyIsSpace c) = true) :
    ∃ c r, s = c :: r ∧ c.isDigit = true := by
  unfold looks_date at h
  rw [pyStrip_of_all_not_space s hns] at h
  split at h
  · rename_i y1 y2 y3 y4 s1 m1 m2 s2 d1 d2
    simp only [Bool.and_eq_true, decide_eq_true_eq] at h
    exact ⟨y1, _, rfl, h.1⟩
  · cases h

lemma time_token_facts (s : List Char) (h : looks_time s = true)
    (hns : s.all (fun c => ¬ pyIsSpace c) = true) :
    looks_time (pyStrip (parse_time s)) = true ∧
    ¬ pyStrip (parse_time s) = [] ∧
    (pyStrip (parse_time s)).all (fun c => ¬ pyIsSpace c) = true ∧
    ∃ c r, pyStrip (parse_time s) = c :: r ∧ c.isDigit = true := by
  have hstrip := pyStrip_of_all_not_space s hns
  unfold looks_time at h
  rw [hstrip] at h
  split at h
  · rename_i h1 h2 m1 m2
    simp only [Bool.and_eq_true, decide_eq_true_eq] at h
    have hpt : parse_time [h1, h2, ':', m1, m2] = [h1, h2, ':', m1, m2] := by
      unfold parse_time
      rw [if_neg (by simp), hstrip]
    rw [hpt, hstrip]
    refine ⟨?_, by simp, hns, ⟨h1, _, rfl, h.1⟩⟩
    unfold looks_time
    rw [hstrip]
    simp only [Bool.and_eq_true, decide_eq_true_eq]
    exact h
  · rename_i a b c d
    simp only [Bool.and_eq_true, decide_eq_true_eq] at h
    have hpt : parse_time [a, b, c, d] = [a, b, ':', c, d] := by
      unfold parse_time
      rw [if_neg (by simp), hstrip]
      show (if a.isDigit = true ∧ b.isDigit = true ∧ c.isDigit = true ∧ d.isDigit = true
        then [a, b, ':', c, d] else [a, b, c, d]) = [a, b, ':', c, d]
      rw [if_pos ⟨h.1, h.2.1, h.2.2.1, h.2.2.2⟩]
    have d1 := isDigit_not_space a h.1
    have d2 := isDigit_not_space b h.2.1
    have d3 := isDigit_not_space c h.2.2.1
    have d4 := isDigit_not_space d h.2.2.2
    have hall5 : ([a, b, ':', c, d] : List Char).all (fun x => ¬ pyIsSpace x) = true := by
      simp only [List.all_cons, List.all_nil, Bool.and_true, Bool.and_eq_true,
        decide_eq_true_eq, Bool.not_eq_true]
      exact ⟨d1, d2, by decide, d3, d4⟩
    have hs5 := pyStrip_of_all_not_space _ hall5
    rw [hpt, hs5]
    refine ⟨?_, by simp, hall5, ⟨a, _, rfl, h.1⟩⟩
    unfold looks_time
    rw [hs5]
    simp only [Bool.and_eq_true, decide_eq_true_eq]
    exact ⟨h.1, h.2.1, h.2.2.1, h.2.2.2⟩
  · cases h

lemma qso_to_ctestwin_line_eq (q : QsoRecord) :
    qso_to_ctestwin_line q = joinSp (export_tokens q) := rfl

lemma map_slash_id (s : List Char) (h : ∀ c ∈ s, ¬ c = '/') :
    s.map (fun c => if c = '/' then '-' else c) = s := by
  induction s with
  | nil => rfl
  | cons c cs ih =>
    simp only [List.map_cons, if_neg (h c (List.mem_cons_self c cs))]
    rw [ih (fun x hx => h x (List.mem_cons_of_mem c hx))]

lemma all_not_space_mem (s : List Char)
    (h : s.all (fun c => ¬ pyIsSpace c) = true) : ∀ c ∈ s, pyIsSpace c = false := by
  simp only [List.all_eq_true, decide_eq_true_eq, Bool.not_eq_true] at h
  exact h

lemma exch_tok_facts (x : List Char)
    (h : x = [] ∨ (isDigitStr x = true ∧ natRepr (digitsVal x) = x ∧
      ¬ x ∈ RST_PREFIXES ∧ findRstHead x = none)) :
    ¬ (if canon_exchange x = [] then ['-'] else canon_exchange x) = [] ∧
    ((if canon_exchange x = [] then ['-'] else canon_exchange x)).all
      (fun c => ¬ pyIsSpace c) = true ∧
    ¬ (if canon_exchange x = [] then ['-'] else canon_exchange x) ∈ RST_PREFIXES ∧
    canon_exchange (extract_exchange_from_token
      (if canon_exchange x = [] then ['-'] else canon_exchange x)) = x := by
  rcases h with rfl | ⟨hdig, hnr, hrst, hfind⟩
  · refine ⟨by decide, by decide, by decide, by decide⟩
  · have hcx : canon_exchange x = x := canon_exchange_canonical x hdig hnr
    have hne : ¬ x = [] := by
      simp only [isDigitStr, Bool.and_eq_true, decide_eq_true_eq] at hdig
      exact hdig.1
    rw [hcx, if_neg hne]
    have hall : x.all Char.isDigit = true := by
      simp only [isDigitStr, Bool.and_eq_true, decide_eq_true_eq] at hdig
      exact hdig.2
    refine ⟨hne, all_digits_not_space x hall, hrst, ?_⟩
    rw [extract_canonical x hdig hrst hfind, hcx]

lemma parse_line_of_tokens
    (d t b m c sE rE p : List Char) (ptsv : Int)
    (hd : looks_date d = true)
    (hdg : ∃ c0 r0, d = c0 :: r0 ∧ c0.isDigit = true)
    (hdws : ∀ x ∈ d, pyIsSpace x = false)
    (ht : looks_time t = true)
    (htws : ∀ x ∈ t, pyIsSpace x = false) (htne : ¬ t = [])
    (hbws : ∀ x ∈ b, pyIsSpace x = false) (hbne : ¬ b = [])
    (hmws : ∀ x ∈ m, pyIsSpace x = false) (hmne : ¬ m = [])
    (hmnd : ¬ isDigitStr m = true)
    (hcws : ∀ x ∈ c, pyIsSpace x = false) (hcne : ¬ c = [])
    (hsws : ∀ x ∈ sE, pyIsSpace x = false) (hsne : ¬ sE = [])
    (hsrst : ¬ sE ∈ RST_PREFIXES)
    (hrws : ∀ x ∈ rE, pyIsSpace x = false) (hrne : ¬ rE = [])
    (hrrst : ¬ rE ∈ RST_PREFIXES)
    (hp : p = natRepr ptsv.toNat) (hptsv : 0 ≤ ptsv) :
    parse_ctestwin_line (joinSp [d, t, b, m, c, ['5', '9'], sE, ['5', '9'], rE, p]) =
      some { date := d.map (fun x => if x = '/' then '-' else x),
             time := parse_time t, band_mhz := parse_band_mhz b, mode := m,
             worked_call := clean_callsign c,
             sent_exch := canon_exchange (extract_exchange_from_token sE),
             rcvd_exch := canon_exchange (extract_exchange_from_token rE),
             pts := ptsv, dup := false,
             raw := joinSp [d, t, b, m, c, ['5', '9'], sE, ['5', '9'], rE, p] } := by
  have hpdig : (p).all Char.isDigit = true := by
    rw [hp]
    have h0 := natRepr_digits ptsv.toNat
    simp only [isDigitStr, Bool.and_eq_true, decide_eq_true_eq] at h0
    exact h0.2
  have hpne : ¬ p = [] := by
    rw [hp]
    have h0 := natRepr_digits ptsv.toNat
    simp only [isDigitStr, Bool.and_eq_true, decide_eq_true_eq] at h0
    exact h0.1
  obtain ⟨c0, r0, hq0, hc0dig⟩ := hdg
  have hdne : ¬ d = [] := by rw [hq0]; simp
  have hTokProps : ∀ tk ∈ ([d, t, b, m, c, ['5', '9'], sE, ['5', '9'], rE, p] :
      List (List Char)), ¬ tk = [] ∧ ∀ x ∈ tk, pyIsSpace x = false := by
    intro tk htk
    simp only [List.mem_cons, List.not_mem_nil, or_false] at htk
    rcases htk with rfl | rfl | rfl | rfl | rfl | rfl | rfl | rfl | rfl | rfl
    · exact ⟨hdne, hdws⟩
    · exact ⟨htne, htws⟩
    · exact ⟨hbne, hbws⟩
    · exact ⟨hmne, hmws⟩
    · exact ⟨hcne, hcws⟩
    · exact ⟨by decide, by decide⟩
    · exact ⟨hsne, hsws⟩
    · exact ⟨by decide, by decide⟩
    · exact ⟨hrne, hrws⟩
    · exact ⟨hpne, fun x hx =>
        isDigit_not_space x ((List.all_eq_true.mp hpdig) x hx)⟩
  have hsplit := pySplitWs_joinSp _ hTokProps
  have hhead : (joinSp [d, t, b, m, c, ['5', '9'], sE, ['5', '9'], rE, p]).head? =
      some c0 := by
    rw [joinSp_head? _ _ hdne, hq0]
    rfl
  have hglast : (joinSp [d, t, b, m, c, ['5', '9'], sE, ['5', '9'], rE, p]).getLast? =
      p.getLast? :=
    joinSp_getLast? _ p rfl hpne
  have hstripline : pyStrip (joinSp [d, t, b, m, c, ['5', '9'], sE, ['5', '9'], rE, p]) =
      joinSp [d, t, b, m, c, ['5', '9'], sE, ['5', '9'], rE, p] := by
    refine pyStrip_eq_self_of_ends _ ?_ ?_
    · intro x hx
      rw [hhead] at hx
      injection hx with hx
      subst hx
      exact isDigit_not_space c0 hc0dig
    · intro x hx
      rw [hglast] at hx
      have hmem := List.mem_of_mem_getLast? (Option.mem_def.mpr hx)
      exact isDigit_not_space x ((List.all_eq_true.mp hpdig) x hmem)
  have hne_line : ¬ joinSp [d, t, b, m, c, ['5', '9'], sE, ['5', '9'], rE, p] = [] := by
    intro hnil
    rw [hnil] at hhead
    cases hhead
  have hshape : joinSp [d, t, b, m, c, ['5', '9'], sE, ['5', '9'], rE, p] =
      c0 :: (r0 ++ ' ' :: joinSp [t, b, m, c, ['5', '9'], sE, ['5', '9'], rE, p]) := by
    rw [show joinSp [d, t, b, m, c, ['5', '9'], sE, ['5', '9'], rE, p] =
      d ++ ' ' :: joinSp [t, b, m, c, ['5', '9'], sE, ['5', '9'], rE, p] from rfl, hq0]
    rfl
  have hpre : ¬ (((("DATE").toList.isPrefixOf
        (joinSp [d, t, b, m, c, ['5', '9'], sE, ['5', '9'], rE, p])) = true) ∨
      ((("---").toList.isPrefixOf
        (joinSp [d, t, b, m, c, ['5', '9'], sE, ['5', '9'], rE, p])) = true) ∨
      ((("Date").toList.isPrefixOf
        (joinSp [d, t, b, m, c, ['5', '9'], sE, ['5', '9'], rE, p])) = true)) := by
    rw [hshape]
    intro hcon
    rcases hcon with h1 | h1 | h1
    · rw [show (("DATE").toList : List Char) = 'D' :: ("ATE").toList from rfl,
        not_isPrefixOf_of_head_ne 'D' c0 _ _
          (fun he => isDigit_ne c0 'D' hc0dig (by decide) he.symm)] at h1
      cases h1
    · rw [show (("---").toList : List Char) = '-' :: ("--").toList from rfl,
        not_isPrefixOf_of_head_ne '-' c0 _ _
          (fun he => isDigit_ne c0 '-' hc0dig (by decide) he.symm)] at h1
      cases h1
    · rw [show (("Date").toList : List Char) = 'D' :: ("ate").toList from rfl,
        not_isPrefixOf_of_head_ne 'D' c0 _ _
          (fun he => isDigit_ne c0 'D' hc0dig (by decide) he.symm)] at h1
      cases h1
  have hpr : take_pts_from_tail [['5', '9'], sE, ['5', '9'], rE, p]
      (joinSp [d, t, b, m, c, ['5', '9'], sE, ['5', '9'], rE, p]) =
      (ptsv, [['5', '9'], sE, ['5', '9'], rE]) := by
    unfold take_pts_from_tail
    rw [if_neg (by simp)]
    rw [show (([['5', '9'], sE, ['5', '9'], rE, p] : List (List Char)).getLastD []) =
      p from rfl]
    rw [stripCommas_digits p hpdig, pyStrip_digits p hpdig,
      if_pos (show isDigitStr p = true from by rw [hp]; exact natRepr_digits _)]
    rw [show (([['5', '9'], sE, ['5', '9'], rE, p] : List (List Char)).dropLast) =
      [['5', '9'], sE, ['5', '9'], rE] from rfl]
    rw [hp, digitsVal_natRepr, Int.toNat_of_nonneg hptsv]
  have hidx : rst_indices [['5', '9'], sE, ['5', '9'], rE] 0 = [0, 2] := by
    simp only [rst_indices]
    rw [if_pos (by decide), if_neg hsrst, if_pos (by decide), if_neg hrrst]
  have hpick : pick_exchange_toks [['5', '9'], sE, ['5', '9'], rE] = (sE, rE) := by
    unfold pick_exchange_toks
    rw [hidx]
    rfl
  unfold parse_ctestwin_line
  rw [hstripline, if_neg hne_line, if_neg hpre, hsplit]
  dsimp only
  rw [if_neg (by simp), if_neg (not_not_intro ⟨hd, ht⟩)]
  rw [hpr, hpick]
  dsimp only
  rw [if_neg (fun hand => hmnd hand.1)]
  by_cases hz : ptsv = 0
  · subst hz
    have hws0 : searchWs0End
        (joinSp [d, t, b, m, c, ['5', '9'], sE, ['5', '9'], rE, p]) = true := by
      obtain ⟨a, ha⟩ := joinSp_split_last
        [d, t, b, m, c, ['5', '9'], sE, ['5', '9'], rE, p] p rfl (by simp)
      rw [ha, show (p : List Char) = ['0'] from by rw [hp]; rfl]
      exact searchWs0End_of_last a
    rw [if_pos (show (0 : Int) ≤ 0 from le_refl 0)]
    rw [if_pos (show _ from Or.inl hws0)]
  · have hgt : ¬ ptsv ≤ 0 := by omega
    rw [if_neg hgt]

lemma parse_export_canonical (q : QsoRecord) (h : ctestwin_canonical q = true) :
    parse_ctestwin_line (qso_to_ctestwin_line q) =
      some { date := q.date, time := parse_time (pyStrip (parse_time q.time)),
             band_mhz := q.band_mhz, mode := q.mode,
             worked_call := q.worked_call, sent_exch := q.sent_exch,
             rcvd_exch := q.rcvd_exch, pts := q.pts, dup := false,
             raw := qso_to_ctestwin_line q } := by
  simp only [ctestwin_canonical, Bool.and_eq_true, decide_eq_true_eq] at h
  obtain ⟨hd, ht, hdws0, htws, ⟨hb1, hb2, hb3, hb4⟩, ⟨hm1, hm2, hm3, hm4⟩,
    ⟨hc1, hc2, hc3⟩, hsent, hrcvd, hpts⟩ := h
  have hdws : q.date.all (fun c => ¬ pyIsSpace c) = true := by
    simp only [List.all_eq_true, decide_eq_true_eq] at hdws0 ⊢
    exact fun c hc => (hdws0 c hc).1
  have hdslash : ∀ c ∈ q.date, ¬ c = '/' := by
    simp only [List.all_eq_true, decide_eq_true_eq] at hdws0
    exact fun c hc => (hdws0 c hc).2
  obtain ⟨htok_lt, htok_ne, htok_ws, tc, tr, htok_shape, htcdig⟩ :=
    time_token_facts q.time ht htws
  obtain ⟨hsa, hsb, hsc, hsd⟩ := exch_tok_facts q.sent_exch hsent
  obtain ⟨hra, hrb, hrc, hrd⟩ := exch_tok_facts q.rcvd_exch hrcvd
  have hT : export_tokens q =
      [q.date, pyStrip (parse_time q.time), q.band_mhz, q.mode, q.worked_call,
       ['5', '9'],
       (if canon_exchange q.sent_exch = [] then ['-'] else canon_exchange q.sent_exch),
       ['5', '9'],
       (if canon_exchange q.rcvd_exch = [] then ['-'] else canon_exchange q.rcvd_exch),
       pyIntRepr q.pts] := by
    unfold export_tokens
    rw [map_slash_id q.date hdslash, pyStrip_of_all_not_space q.date hdws]
    rw [hb1, if_neg hb3, if_neg hm2, hm1, hc1]
  have hptsRepr : pyIntRepr q.pts = natRepr q.pts.toNat := by
    unfold pyIntRepr
    rw [if_neg (by omega)]
  rw [qso_to_ctestwin_line_eq, hT, hptsRepr]
  rw [parse_line_of_tokens q.date (pyStrip (parse_time q.time)) q.band_mhz q.mode
    q.worked_call
    (if canon_exchange q.sent_exch = [] then ['-'] else canon_exchange q.sent_exch)
    (if canon_exchange q.rcvd_exch = [] then ['-'] else canon_exchange q.rcvd_exch)
    (natRepr q.pts.toNat) q.pts
    hd (looks_date_head q.date hd hdws) (all_not_space_mem _ hdws)
    htok_lt (all_not_space_mem _ htok_ws) htok_ne
    (all_not_space_mem _ hb4) hb3
    (all_not_space_mem _ hm3) hm2 hm4
    (all_not_space_mem _ hc3) hc2
    (all_not_space_mem _ hsb) hsa hsc
    (all_not_space_mem _ hrb) hra hrc
    rfl hpts]
  rw [map_slash_id q.date hdslash, hb2, hc1, hsd, hrd]

/-- C9 (amended): re-exporting and re-parsing preserves the
(callsign, band, mode, sent, rcvd, pts) tuples — as a list, hence also as
a set — for canonical records: well-formed date/time tokens, band and
mode/callsign fields already in exported canonical form, non-negative
points, and exchanges that are empty or canonical digit strings neither
equal to nor extending an RST report code (59/57/55/58/56).  Without the
RST restriction the round trip fails (see the counterexample): an
exchange value such as 57 is re-read as a signal report. -/
theorem c9_roundtrip_canonical (qs : List QsoRecord)
    (h : ∀ q ∈ qs, ctestwin_canonical q = true) :
    (parse_logsheet_ctestwin (qs.map qso_to_ctestwin_line)).map qso_key =
      qs.map qso_key := by
  induction qs with
  | nil => rfl
  | cons q rest ih =>
    have hq := h q (List.mem_cons_self q rest)
    have hrest := ih (fun r hr => h r (List.mem_cons_of_mem _ hr))
    simp only [List.map_cons]
    unfold parse_logsheet_ctestwin
    rw [List.filterMap_cons, parse_export_canonical q hq]
    simp only [List.map_cons]
    unfold parse_logsheet_ctestwin at hrest
    rw [hrest]
    rfl

/-- Witness for C9 at a concrete canonical one-contact log. -/
theorem c9_witness :
    (∀ q ∈ [(⟨("2025-05-05").toList, ("10:00").toList, ("50").toList,
        ("AM").toList, ("JA1ABC").toList, ("5").toList, ("12").toList,
        2, false, []⟩ : QsoRecord)], ctestwin_canonical q = true) ∧
    (parse_logsheet_ctestwin
        ([(⟨("2025-05-05").toList, ("10:00").toList, ("50").toList,
          ("AM").toList, ("JA1ABC").toList, ("5").toList, ("12").toList,
          2, false, []⟩ : QsoRecord)].map qso_to_ctestwin_line)).map qso_key =
      [(⟨("2025-05-05").toList, ("10:00").toList, ("50").toList,
        ("AM").toList, ("JA1ABC").toList, ("5").toList, ("12").toList,
        2, false, []⟩ : QsoRecord)].map qso_key :=
  ⟨by decide, c9_roundtrip_canonical _ (by decide)⟩

/-- Counterexample to C9 as stated: the parsed log line
`2025-05-05 10:00 50 AM JA1ABC 59 057 59 13 2` has sent exchange 57 and
received exchange 13, but its re-exported line `... 59 57 59 13 2` is
re-parsed with the 57 treated as an RST report, so both exchanges come
back empty — the tuple sets differ. -/
theorem c9_counterexample :
    ((parse_logsheet_ctestwin ((parse_logsheet_ctestwin
        [("2025-05-05 10:00 50 AM JA1ABC 59 057 59 13 2").toList]).map
          qso_to_ctestwin_line)).map qso_key).toFinset ≠
      ((parse_logsheet_ctestwin
        [("2025-05-05 10:00 50 AM JA1ABC 59 057 59 13 2").toList]).map
          qso_key).toFinset ∧
    (parse_logsheet_ctestwin
        [("2025-05-05 10:00 50 AM JA1ABC 59 057 59 13 2").toList]).map
      (fun q => (q.sent_exch, q.rcvd_exch)) = [(("57").toList, ("13").toList)] ∧
    (parse_logsheet_ctestwin ((parse_logsheet_ctestwin
        [("2025-05-05 10:00 50 AM JA1ABC 59 057 59 13 2").toList]).map
          qso_to_ctestwin_line)).map
      (fun q => (q.sent_exch, q.rcvd_exch)) = [([], [])] := by
  refine ⟨by decide, by decide, by decide⟩

/-! Sanity checks of the embedding on concrete inputs. -/

example : pyStrip (" ab\t").toList = ['a', 'b'] := by decide
example : natRepr 570 = ['5', '7', '0'] := by decide
example : pyInt (" -42 ").toList = some (-42) := by decide
example : pySplitWs ("a  bc ").toList = [['a'], ['b', 'c']] := by decide
example : splitOnChar '/' ("JA1/P").toList = [['J', 'A', '1'], ['P']] := by decide
example : containsSub ("xdupz").toList (("dup").toList) = true := by decide
example : canon_exchange (" 057 ").toList = ['5', '7'] := by decide
example : canon_exchange ("-").toList = [] := by decide
example : extract_exchange_from_token ("59013").toList = ['0', '1', '3'] := by decide
example : extract_exchange_from_token ("59").toList = [] := by decide
example : parse_band_mhz ("50MHz ").toList = ['5', '0'] := by decide
example : canon_band_token ("50.0").toList = ['5', '0'] := by decide
example : canon_band_token ("50.3").toList = ['5', '0', '.', '3'] := by decide
example : parse_time ("1003").toList = ['1', '0', ':', '0', '3'] := by decide
example : looks_date ("2025/05-05").toList = true := by decide
example : looks_date ("2025-5-05").toList = false := by decide
example : looks_time ("10:00").toList = true := by decide
example : looks_callsign ("ja1abc/1").toList = true := by decide
example : looks_callsign ("123/4").toList = false := by decide
example :
    parse_logsheet_ctestwin [("2025-05-05 10:00 50 AM JA1ABC 59 5 59 12 2").toList] =
      [{ date := ("2025-05-05").toList, time := ("10:00").toList,
         band_mhz := ("50").toList, mode := ("AM").toList,
         worked_call := ("JA1ABC").toList, sent_exch := ("5").toList,
         rcvd_exch := ("12").toList, pts := 2, dup := false,
         raw := ("2025-05-05 10:00 50 AM JA1ABC 59 5 59 12 2").toList }] := by decide
example : find_tag ("x<TotalScore> 12formatted</TOTALSCORE>y").toList
    (("TOTALSCORE").toList) = some (("12formatted").toList) := by decide
example : claimed_total_of_summary ("<SUMMARYSHEET><CALLSIGN>JA1X</CALLSIGN></SUMMARYSHEET>").toList = some 0 := by decide
example : parse_score_triplet ("10, 20, 5").toList = (some 10, some 20, some 5) := by decide
example : parse_score_triplet ("10, 20").toList = (none, none, none) := by decide
example : extract_call_area_digit_base ("JA1ABC/1").toList = Except.ok (some 1) := rfl
example : extract_call_area_digit_base ("JA1ABC/P").toList = Except.error ['P'] := rfl
example : extract_call_area_digit_base ("JA1ABC").toList = Except.ok none := rfl
